import Mathlib

/-!
Verification of the climate query service (`src/app.py`).

The service exposes read-only routes over a fixed dataset of weather
measurements.  We shallowly embed the data model (`Measurement`), the
aggregation query `temp_stats`, and the request handlers (`precip`,
`tobsRoute`, `tobs_start`, `tobs_start_end`) as pure Lean functions,
modelling Python `datetime` values as year/month/day triples with
chronological order, nullable SQL columns as `Option`, and an uncaught
Python exception as a distinguished `crash` outcome (for the date routes)
or `none` (for the routes modelled as `Option` results).
-/

/-- A calendar date, the shallow embedding of a Python `datetime` produced by
`dt.datetime.strptime(s, "%Y-%m-%d")` (time fields are always zero in the
program, so they are omitted). -/
structure Date where
  y : Nat
  m : Nat
  d : Nat
deriving DecidableEq, Repr

/-- Chronological strict order on dates: the embedding of `<` on Python
`datetime` values (lexicographic on year, month, day). -/
def Date.lt (a b : Date) : Bool :=
  a.y < b.y || (a.y == b.y && (a.m < b.m || (a.m == b.m && a.d < b.d)))

/-- Chronological non-strict order on dates. -/
def Date.le (a b : Date) : Bool :=
  Date.lt a b || a == b

/-- Gregorian leap-year rule, as implemented by Python `datetime`. -/
def isLeap (y : Nat) : Bool :=
  (y % 4 == 0 && y % 100 != 0) || y % 400 == 0

/-- Number of days of month `m` in year `y`. -/
def daysInMonth (y m : Nat) : Nat :=
  if m == 2 then (if isLeap y then 29 else 28)
  else if m == 4 || m == 6 || m == 9 || m == 11 then 30
  else 31

/-- Whether the `dt.datetime(y, m, d)` constructor accepts the triple
(Python also requires `MINYEAR = 1 ≤ y`). -/
def Date.valid (a : Date) : Bool :=
  1 ≤ a.y && 1 ≤ a.m && a.m ≤ 12 && 1 ≤ a.d && a.d ≤ daysInMonth a.y a.m

/-- `dt.datetime(d.year - 1, d.month, d.day)`: same month and day, year minus
one; `none` models the uncaught `ValueError` when that date does not exist. -/
def oneYearBefore (a : Date) : Option Date :=
  let r : Date := ⟨a.y - 1, a.m, a.d⟩
  if r.valid then some r else none

/-- One row of the `measurement` table: station id, observation date, and the
nullable `prcp` and `tobs` columns. -/
structure Measurement where
  station : String
  date : Date
  prcp : Option ℚ
  tobs : Option ℚ
deriving DecidableEq, Repr

/-- `min` of two dates, as used when folding `func.min(Measurement.date)`. -/
def minD (a b : Date) : Date := if Date.lt b a then b else a

/-- `max` of two dates, as used when folding `func.max(Measurement.date)`. -/
def maxD (a b : Date) : Date := if Date.lt a b then b else a

/-- `session.query(func.min(Measurement.date))`: the earliest measurement
date, `NULL` (`none`) on an empty table. -/
def earliestDate (ms : List Measurement) : Option Date :=
  match ms.map (fun m => m.date) with
  | [] => none
  | d :: ds => some (ds.foldl minD d)

/-- `session.query(func.max(Measurement.date))`: the latest measurement
date, `NULL` (`none`) on an empty table. -/
def latestDate (ms : List Measurement) : Option Date :=
  match ms.map (fun m => m.date) with
  | [] => none
  | d :: ds => some (ds.foldl maxD d)

/-- The non-null `tobs` values of measurements whose date lies in the
inclusive range `[s, e]`: SQL `BETWEEN` is inclusive on both ends, and the
aggregates `min`/`avg`/`max` ignore `NULL` values of `tobs`. -/
def tobsInRange (ms : List Measurement) (s e : Date) : List ℚ :=
  (ms.filter (fun m => Date.le s m.date && Date.le m.date e)).filterMap
    (fun m => m.tobs)

/-- `temp_stats(session, start_date, end_date)`: the single result row
`(TMIN, TAVG, TMAX)`; over zero non-null values each aggregate is `NULL`. -/
def temp_stats (ms : List Measurement) (s e : Date) :
    Option ℚ × Option ℚ × Option ℚ :=
  let ts := tobsInRange ms s e
  (ts.min?,
   if ts.isEmpty then none else some (ts.sum / (ts.length : ℚ)),
   ts.max?)

/-- Outcome of the `/api/v1.0/<start>` and `/api/v1.0/<start>/<end>`
routes. -/
inductive Resp where
  /-- The success page interpolating the two dates and the statistics row. -/
  | ok (s e : Date) (stats : Option ℚ × Option ℚ × Option ℚ)
  /-- "Please enter a valid date format YYYY-mm-dd" (`ValueError` branch). -/
  | invalidFormat
  /-- Single-date route `DataDateError` page naming the latest date. -/
  | dateLater (latest : Date)
  /-- Two-date route `DataDateError` page naming the earliest and latest
  dates. -/
  | outOfBounds (earliest latest : Date)
  /-- An uncaught exception (`TypeError` from `round(None, 1)`, or a
  `TypeError` from `strptime(None, ...)` on an empty dataset). -/
  | crash
deriving DecidableEq, Repr

/-- Building the success page: `round(TAvg, 1)` raises an uncaught
`TypeError` when the average is `NULL`. -/
def renderStats (s e : Date) (stats : Option ℚ × Option ℚ × Option ℚ) : Resp :=
  match stats.2.1 with
  | none => Resp.crash
  | some _ => Resp.ok s e stats

/-- `/api/v1.0/<start>` (`tobs_start`).  A path parameter that
`strptime` rejects is `none`; a parsed one is `some` its date. -/
def tobs_start (ms : List Measurement) (start : Option Date) : Resp :=
  match latestDate ms with
  | none => Resp.crash
  | some d_latest =>
    match start with
    | none => Resp.invalidFormat
    | some s =>
      if Date.lt d_latest s then Resp.dateLater d_latest
      else renderStats s d_latest (temp_stats ms s d_latest)

/-- The ordered pair after the silent swap: `start, end = end, start` when
`strptime(start) > strptime(end)`. -/
def swapOrdered (s e : Date) : Date × Date :=
  if Date.lt e s then (e, s) else (s, e)

/-- The clamp `if start < d_earliest: start = d_earliest`. -/
def clampLow (d_earliest s : Date) : Date :=
  if Date.lt s d_earliest then d_earliest else s

/-- The clamp `if end > d_latest: end = d_latest`. -/
def clampHigh (d_latest e : Date) : Date :=
  if Date.lt d_latest e then d_latest else e

/-- `/api/v1.0/<start>/<end>` (`tobs_start_end`): swap when out of order,
raise `DataDateError` when (after the swap) `start > d_latest` and
`end < d_earliest`, clamp both ends to the data span, then query. -/
def tobs_start_end (ms : List Measurement) (start fin : Option Date) : Resp :=
  match earliestDate ms, latestDate ms with
  | some d_earliest, some d_latest =>
    match start, fin with
    | some s0, some e0 =>
      let p := swapOrdered s0 e0
      if Date.lt d_latest p.1 && Date.lt p.2 d_earliest then
        Resp.outOfBounds d_earliest d_latest
      else
        let s := clampLow d_earliest p.1
        let e := clampHigh d_latest p.2
        renderStats s e (temp_stats ms s e)
    | _, _ => Resp.invalidFormat
  | _, _ => Resp.crash

/-- `/api/v1.0/precipitation`: rows `(date, prcp)` with `date > d_1yr`,
ordered by date ascending.  `none` models the handler dying on an uncaught
exception (`strptime(None, ...)` on an empty dataset, or `ValueError` from
the `dt.datetime` constructor at a leap day). -/
def precip (ms : List Measurement) : Option (List (Date × Option ℚ)) :=
  match latestDate ms with
  | none => none
  | some d_latest =>
    match oneYearBefore d_latest with
    | none => none
    | some d_1yr =>
      some (((ms.filter (fun m => Date.lt d_1yr m.date)).mergeSort
        (fun a b => Date.le a.date b.date)).map (fun m => (m.date, m.prcp)))

/-- The `group_by(Measurement.station)` result: each distinct station id with
its row count (`func.count(Measurement.station)`). -/
def stationCounts (ms : List Measurement) : List (String × Nat) :=
  ((ms.map (fun m => m.station)).dedup).map
    (fun s => (s, (ms.filter (fun m => m.station == s)).length))

/-- Row count of one station. -/
def stationCount (ms : List Measurement) (s : String) : Nat :=
  (ms.filter (fun m => m.station == s)).length

/-- `n_station[0][0]`: the head of the groups ordered by count descending;
`none` models the `IndexError` on an empty dataset. -/
def busiestStation (ms : List Measurement) : Option String :=
  (((stationCounts ms).mergeSort (fun a b => decide (b.2 ≤ a.2))).head?).map
    (fun p => p.1)

/-- `/api/v1.0/tobs` (`tobs`): temperature rows of the busiest station over
its own last year; `none` models the handler dying on an uncaught
exception. -/
def tobsRoute (ms : List Measurement) : Option (List (String × Date × Option ℚ)) :=
  match busiestStation ms with
  | none => none
  | some sid =>
    match latestDate (ms.filter (fun m => m.station == sid)) with
    | none => none
    | some d_latest =>
      match oneYearBefore d_latest with
      | none => none
      | some d_1yr =>
        some (((ms.filter (fun m => m.station == sid && Date.lt d_1yr m.date)).mergeSort
          (fun a b => Date.le a.date b.date)).map
            (fun m => (m.station, m.date, m.tobs)))

/-- A small concrete dataset spanning 2010-01-01 to 2017-08-23, the span of
the reference dataset; the last row has a `NULL` precipitation value. -/
def msSpan : List Measurement :=
  [⟨"USC1", ⟨2010, 1, 1⟩, some 1, some 65⟩,
   ⟨"USC1", ⟨2017, 1, 10⟩, some 0, some 70⟩,
   ⟨"USC1", ⟨2017, 8, 23⟩, none, some 80⟩]

/-- A dataset whose latest measurement date is the leap day 2016-02-29. -/
def msLeap : List Measurement :=
  [⟨"USC1", ⟨2016, 2, 29⟩, some 1, some 70⟩]

/-- A dataset with two stations: `"A"` has two rows, `"B"` has one. -/
def msTwoStations : List Measurement :=
  [⟨"A", ⟨2017, 1, 1⟩, some 1, some 70⟩,
   ⟨"B", ⟨2017, 1, 2⟩, some 2, some 71⟩,
   ⟨"A", ⟨2017, 1, 3⟩, some 3, some 72⟩]

/-! ### Order lemmas for `Date` -/

theorem Date.lt_iff {a b : Date} : Date.lt a b = true ↔
    a.y < b.y ∨ (a.y = b.y ∧ (a.m < b.m ∨ (a.m = b.m ∧ a.d < b.d))) := by
  simp [Date.lt]

theorem Date.le_iff {a b : Date} : Date.le a b = true ↔
    a.y < b.y ∨ (a.y = b.y ∧ (a.m < b.m ∨ (a.m = b.m ∧ a.d ≤ b.d))) := by
  cases a with
  | mk ay am ad =>
    cases b with
    | mk by' bm bd =>
      simp [Date.le, Date.lt, Date.mk.injEq]
      omega

theorem Date.le_refl (a : Date) : Date.le a a = true := by
  simp [Date.le_iff]

theorem Date.le_trans {a b c : Date} (h₁ : Date.le a b = true)
    (h₂ : Date.le b c = true) : Date.le a c = true := by
  rw [Date.le_iff] at *
  omega

theorem Date.lt_asymm {a b : Date} (h : Date.lt a b = true) :
    Date.lt b a = false := by
  rw [Date.lt_iff] at h
  rw [Bool.eq_false_iff]
  intro hc
  rw [Date.lt_iff] at hc
  omega

theorem Date.not_lt {a b : Date} : Date.lt a b = false ↔ Date.le b a = true := by
  constructor
  · intro h
    rw [Bool.eq_false_iff] at h
    rw [Date.le_iff]
    by_contra hc
    apply h
    rw [Date.lt_iff]
    omega
  · intro h
    rw [Date.le_iff] at h
    rw [Bool.eq_false_iff]
    intro hc
    rw [Date.lt_iff] at hc
    omega

theorem Date.lt_le {a b : Date} (h : Date.lt a b = true) : Date.le a b = true := by
  rw [Date.lt_iff] at h
  rw [Date.le_iff]
  omega

theorem Date.le_antisymm {a b : Date} (h₁ : Date.le a b = true)
    (h₂ : Date.le b a = true) : a = b := by
  cases a with
  | mk ay am ad =>
    cases b with
    | mk by' bm bd =>
      rw [Date.le_iff] at h₁ h₂
      dsimp only at h₁ h₂
      simp only [Date.mk.injEq]
      omega

theorem Date.le_total (a b : Date) :
    Date.le a b = true ∨ Date.le b a = true := by
  rw [Date.le_iff, Date.le_iff]
  omega

theorem Date.lt_of_le_of_lt {a b c : Date} (h₁ : Date.le a b = true)
    (h₂ : Date.lt b c = true) : Date.lt a c = true := by
  rw [Date.le_iff] at h₁
  rw [Date.lt_iff] at *
  omega

theorem Date.lt_irrefl (a : Date) : Date.lt a a = false := by
  rw [Bool.eq_false_iff]
  intro h
  rw [Date.lt_iff] at h
  omega

theorem Date.lt_trans {a b c : Date} (h₁ : Date.lt a b = true)
    (h₂ : Date.lt b c = true) : Date.lt a c = true := by
  rw [Date.lt_iff] at *
  omega

/-! ### The dataset's date bounds -/

theorem foldl_minD_le (l : List Date) (a : Date) :
    Date.le (l.foldl minD a) a = true := by
  induction l generalizing a with
  | nil => exact Date.le_refl a
  | cons b t ih =>
    simp only [List.foldl_cons]
    refine Date.le_trans (ih (minD a b)) ?_
    unfold minD
    by_cases h : Date.lt b a = true
    · simp [h, Date.lt_le h]
    · simp [h, Date.le_refl]

theorem foldl_minD_le_mem (l : List Date) (a : Date) (x : Date)
    (hx : x ∈ l) : Date.le (l.foldl minD a) x = true := by
  induction l generalizing a with
  | nil => cases hx
  | cons b t ih =>
    simp only [List.foldl_cons]
    rcases List.mem_cons.mp hx with rfl | hmem
    · refine Date.le_trans (foldl_minD_le t (minD a x)) ?_
      unfold minD
      by_cases h : Date.lt x a = true
      · simp [h, Date.le_refl]
      · simp [h, Date.not_lt.mp (Bool.eq_false_iff.mpr h)]
    · exact ih (minD a b) hmem

theorem le_foldl_maxD (l : List Date) (a : Date) :
    Date.le a (l.foldl maxD a) = true := by
  induction l generalizing a with
  | nil => exact Date.le_refl a
  | cons b t ih =>
    simp only [List.foldl_cons]
    refine Date.le_trans ?_ (ih (maxD a b))
    unfold maxD
    by_cases h : Date.lt a b = true
    · simp [h, Date.lt_le h]
    · simp [h, Date.le_refl]

theorem mem_le_foldl_maxD (l : List Date) (a : Date) (x : Date)
    (hx : x ∈ l) : Date.le x (l.foldl maxD a) = true := by
  induction l generalizing a with
  | nil => cases hx
  | cons b t ih =>
    simp only [List.foldl_cons]
    rcases List.mem_cons.mp hx with rfl | hmem
    · refine Date.le_trans ?_ (le_foldl_maxD t (maxD a x))
      unfold maxD
      by_cases h : Date.lt a x = true
      · simp [h, Date.le_refl]
      · simp [h, Date.not_lt.mp (Bool.eq_false_iff.mpr h)]
    · exact ih (maxD a b) hmem

/-- The dataset's earliest date never exceeds its latest date. -/
theorem earliest_le_latest {ms : List Measurement} {de dl : Date}
    (he : earliestDate ms = some de) (hl : latestDate ms = some dl) :
    Date.le de dl = true := by
  unfold earliestDate at he
  unfold latestDate at hl
  cases hms : ms.map (fun m => m.date) with
  | nil => rw [hms] at he; cases he
  | cons d ds =>
    rw [hms] at he hl
    simp only [Option.some.injEq] at he hl
    subst he hl
    exact Date.le_trans (foldl_minD_le ds d) (le_foldl_maxD ds d)

/-! ### The swap, the guard and the clamps -/

theorem swapOrdered_le (s0 e0 : Date) :
    Date.le (swapOrdered s0 e0).1 (swapOrdered s0 e0).2 = true := by
  unfold swapOrdered
  by_cases h : Date.lt e0 s0 = true
  · rw [if_pos h]
    exact Date.lt_le h
  · rw [if_neg h]
    exact Date.not_lt.mp (Bool.eq_false_iff.mpr h)

theorem swapOrdered_comm (s0 e0 : Date) :
    swapOrdered s0 e0 = swapOrdered e0 s0 := by
  unfold swapOrdered
  by_cases h₁ : Date.lt e0 s0 = true
  · have h₂ := Date.lt_asymm h₁
    simp [h₁, h₂]
  · by_cases h₂ : Date.lt s0 e0 = true
    · simp [h₁, h₂]
    · have h₁' := Bool.eq_false_iff.mpr h₁
      have h₂' := Bool.eq_false_iff.mpr h₂
      have : s0 = e0 :=
        Date.le_antisymm (Date.not_lt.mp h₁') (Date.not_lt.mp h₂')
      subst this
      simp

/-- After the swap, the `DataDateError` guard of `tobs_start_end` is always
false whenever the dataset's earliest date does not exceed its latest. -/
theorem swapGuardFalse {de dl : Date} (hdedl : Date.le de dl = true)
    (s0 e0 : Date) :
    (Date.lt dl (swapOrdered s0 e0).1 && Date.lt (swapOrdered s0 e0).2 de)
      = false := by
  by_contra hc
  rw [Bool.not_eq_false, Bool.and_eq_true] at hc
  obtain ⟨h1, h2⟩ := hc
  have hle := swapOrdered_le s0 e0
  have hlt1 : Date.lt de (swapOrdered s0 e0).1 = true :=
    Date.lt_of_le_of_lt hdedl h1
  have hlt2 : Date.lt (swapOrdered s0 e0).1 de = true :=
    Date.lt_of_le_of_lt hle h2
  have := Date.lt_trans hlt1 hlt2
  rw [Date.lt_irrefl] at this
  cases this

theorem renderStats_ne_outOfBounds (s e de dl : Date)
    (st : Option ℚ × Option ℚ × Option ℚ) :
    renderStats s e st ≠ Resp.outOfBounds de dl := by
  unfold renderStats
  cases st.2.1 <;> simp

/-- C9: in `tobs_start_end`, for every dataset (whose earliest date never
exceeds its latest, as `earliest_le_latest` shows) and every pair of inputs,
the `DataDateError` branch is unreachable: after the swap orders the pair,
the guard `start > d_latest and end < d_earliest` can never hold, so the
out-of-bounds message is never produced. -/
theorem c9_outOfBounds_unreachable (ms : List Measurement)
    (s0 e0 : Option Date) (de dl : Date) :
    tobs_start_end ms s0 e0 ≠ Resp.outOfBounds de dl := by
  unfold tobs_start_end
  cases he : earliestDate ms with
  | none => cases hl : latestDate ms <;> simp
  | some de' =>
    cases hl : latestDate ms with
    | none => simp
    | some dl' =>
      cases s0 with
      | none => cases e0 <;> simp
      | some s0' =>
        cases e0 with
        | none => simp
        | some e0' =>
          have hg := swapGuardFalse (earliest_le_latest he hl) s0' e0'
          dsimp only
          rw [hg]
          simp only [Bool.false_eq_true, if_false]
          exact renderStats_ne_outOfBounds _ _ _ _ _

/-- C3: the single-date route rejects a start date strictly after the
dataset's latest date with the `DataDateError` page naming that latest date,
and otherwise computes `temp_stats(start, d_latest)`. -/
theorem c3_tobs_start_behavior (ms : List Measurement) (s dl : Date)
    (hl : latestDate ms = some dl) :
    (Date.lt dl s = true → tobs_start ms (some s) = Resp.dateLater dl) ∧
    (Date.lt dl s = false →
      tobs_start ms (some s) = renderStats s dl (temp_stats ms s dl)) := by
  unfold tobs_start
  rw [hl]
  constructor
  · intro h
    simp [h]
  · intro h
    simp [h]

/-- Witness for C3 at the spec's scenario: latest date 2017-08-23, request
start 2018-01-01. -/
theorem c3_witness :
    latestDate msSpan = some ⟨2017, 8, 23⟩ ∧
    tobs_start msSpan (some ⟨2018, 1, 1⟩) = Resp.dateLater ⟨2017, 8, 23⟩ :=
  ⟨by decide,
   (c3_tobs_start_behavior msSpan ⟨2018, 1, 1⟩ ⟨2017, 8, 23⟩ (by decide)).1
     (by decide)⟩

/-- C5: the two-date route is symmetric in its two (validly parsed) date
arguments: the silent swap makes `tobs_start_end` behave identically on the
exchanged pair. -/
theorem c5_swap_symmetric (ms : List Measurement) (s0 e0 : Date) :
    tobs_start_end ms (some s0) (some e0) =
      tobs_start_end ms (some e0) (some s0) := by
  unfold tobs_start_end
  cases earliestDate ms with
  | none => cases latestDate ms <;> rfl
  | some de =>
    cases latestDate ms with
    | none => rfl
    | some dl =>
      dsimp only
      rw [swapOrdered_comm]

/-- C4: on an ordered valid pair, the two-date route clamps the start up to
the dataset's earliest date and the end down to its latest date, and queries
`temp_stats` over exactly the clamped inclusive range. -/
theorem c4_clamping (ms : List Measurement) (s0 e0 de dl : Date)
    (he : earliestDate ms = some de) (hl : latestDate ms = some dl)
    (hord : Date.le s0 e0 = true) :
    tobs_start_end ms (some s0) (some e0) =
      renderStats (clampLow de s0) (clampHigh dl e0)
        (temp_stats ms (clampLow de s0) (clampHigh dl e0)) ∧
    (Date.lt s0 de = true → clampLow de s0 = de) ∧
    (Date.lt s0 de = false → clampLow de s0 = s0) ∧
    (Date.lt dl e0 = true → clampHigh dl e0 = dl) ∧
    (Date.lt dl e0 = false → clampHigh dl e0 = e0) := by
  have hswapc : Date.lt e0 s0 = false := Date.not_lt.mpr hord
  have hswap : swapOrdered s0 e0 = (s0, e0) := by
    unfold swapOrdered
    simp [hswapc]
  refine ⟨?_, ?_, ?_, ?_, ?_⟩
  · unfold tobs_start_end
    rw [he, hl]
    dsimp only
    have hg := swapGuardFalse (earliest_le_latest he hl) s0 e0
    rw [hswap] at hg
    rw [hswap]
    dsimp only at hg ⊢
    rw [hg]
    simp
  · intro h
    simp [clampLow, h]
  · intro h
    simp [clampLow, h]
  · intro h
    simp [clampHigh, h]
  · intro h
    simp [clampHigh, h]

/-- Witness for C4 at the spec's scenario: request [2017-01-01, 2017-12-31]
against a dataset ending 2017-08-23 computes stats over
[2017-01-01, 2017-08-23]. -/
theorem c4_witness :
    Date.le (⟨2017, 1, 1⟩ : Date) ⟨2017, 12, 31⟩ = true ∧
    tobs_start_end msSpan (some ⟨2017, 1, 1⟩) (some ⟨2017, 12, 31⟩) =
      renderStats ⟨2017, 1, 1⟩ ⟨2017, 8, 23⟩
        (temp_stats msSpan ⟨2017, 1, 1⟩ ⟨2017, 8, 23⟩) := by
  constructor
  · decide
  · have h := (c4_clamping msSpan ⟨2017, 1, 1⟩ ⟨2017, 12, 31⟩ ⟨2010, 1, 1⟩
      ⟨2017, 8, 23⟩ (by decide) (by decide) (by decide)).1
    rw [show clampLow (⟨2010, 1, 1⟩ : Date) ⟨2017, 1, 1⟩ = ⟨2017, 1, 1⟩ from
          by decide,
        show clampHigh (⟨2017, 8, 23⟩ : Date) ⟨2017, 12, 31⟩ = ⟨2017, 8, 23⟩ from
          by decide] at h
    exact h

/-- The success branch dies iff the queried range holds no non-null
temperature reading: the average is then `NULL` and `round(None, 1)` raises
an uncaught `TypeError`. -/
theorem renderStats_temp_stats_crash_iff (ms : List Measurement) (s e : Date) :
    renderStats s e (temp_stats ms s e) = Resp.crash ↔
      tobsInRange ms s e = [] := by
  unfold renderStats temp_stats
  dsimp only
  by_cases h : (tobsInRange ms s e).isEmpty = true
  · rw [if_pos h]
    simp [List.isEmpty_iff.mp h]
  · rw [if_neg h]
    rw [List.isEmpty_iff] at h
    simp [h]

/-- C1 (divergence evidence): the request `/api/v1.0/2020-01-01/2021-01-01`
against a dataset spanning 2010-01-01 to 2017-08-23 does not produce the
`DataDateError` out-of-bounds page; the end date is clamped to the latest
date, the clamped range is empty, and the handler dies on the uncaught
`TypeError` from `round(None, 1)`. -/
theorem c1_scenario_crashes_not_outOfBounds :
    tobs_start_end msSpan (some ⟨2020, 1, 1⟩) (some ⟨2021, 1, 1⟩) =
      Resp.crash ∧
    ∀ de dl : Date,
      tobs_start_end msSpan (some ⟨2020, 1, 1⟩) (some ⟨2021, 1, 1⟩) ≠
        Resp.outOfBounds de dl := by
  constructor
  · decide
  · intro de dl h
    rw [show tobs_start_end msSpan (some ⟨2020, 1, 1⟩) (some ⟨2021, 1, 1⟩) =
          Resp.crash from by decide] at h
    cases h

/-- C2 counterexample: a user input on which the two-date handler raises an
uncaught exception instead of returning a response. -/
theorem c2_counterexample :
    tobs_start_end msSpan (some ⟨2020, 1, 1⟩) (some ⟨2021, 1, 1⟩) =
      Resp.crash := by
  decide

/-- C2 (amended): invalid formats always yield the format-error page, and
the date routes crash exactly when the queried (clamped) range holds no
non-null temperature reading, where the `NULL` average makes
`round(None, 1)` raise an uncaught `TypeError`. -/
theorem c2_amended_no_crash_except_empty (ms : List Measurement)
    (s e de dl : Date)
    (he : earliestDate ms = some de) (hl : latestDate ms = some dl) :
    tobs_start ms none = Resp.invalidFormat ∧
    (∀ x : Option Date, tobs_start_end ms none x = Resp.invalidFormat) ∧
    (∀ x : Option Date, tobs_start_end ms x none = Resp.invalidFormat) ∧
    (tobs_start ms (some s) = Resp.crash ↔
      Date.lt dl s = false ∧ tobsInRange ms s dl = []) ∧
    (tobs_start_end ms (some s) (some e) = Resp.crash ↔
      tobsInRange ms (clampLow de (swapOrdered s e).1)
        (clampHigh dl (swapOrdered s e).2) = []) := by
  refine ⟨?_, ?_, ?_, ?_, ?_⟩
  · unfold tobs_start
    rw [hl]
  · intro x
    unfold tobs_start_end
    rw [he, hl]
  · intro x
    unfold tobs_start_end
    rw [he, hl]
    cases x <;> rfl
  · unfold tobs_start
    rw [hl]
    dsimp only
    by_cases h : Date.lt dl s = true
    · rw [if_pos h]
      simp [h]
    · rw [if_neg h]
      rw [renderStats_temp_stats_crash_iff]
      simp [Bool.eq_false_iff.mpr h]
  · unfold tobs_start_end
    rw [he, hl]
    dsimp only
    rw [swapGuardFalse (earliest_le_latest he hl) s e]
    simp only [Bool.false_eq_true, if_false]
    exact renderStats_temp_stats_crash_iff ms _ _

/-- Witness for C2 (amended) at the dataset spanning 2010-01-01 to
2017-08-23. -/
theorem c2_witness :
    tobs_start msSpan none = Resp.invalidFormat ∧
    (tobs_start_end msSpan (some ⟨2020, 1, 1⟩) (some ⟨2021, 1, 1⟩) =
        Resp.crash ↔
      tobsInRange msSpan
        (clampLow ⟨2010, 1, 1⟩ (swapOrdered ⟨2020, 1, 1⟩ ⟨2021, 1, 1⟩).1)
        (clampHigh ⟨2017, 8, 23⟩ (swapOrdered ⟨2020, 1, 1⟩ ⟨2021, 1, 1⟩).2)
          = []) := by
  have h := c2_amended_no_crash_except_empty msSpan ⟨2020, 1, 1⟩ ⟨2021, 1, 1⟩
    ⟨2010, 1, 1⟩ ⟨2017, 8, 23⟩ (by decide) (by decide)
  exact ⟨h.1, h.2.2.2.2⟩

/-! ### Bounds for the SQL aggregates -/

theorem foldl_min_le_self (l : List ℚ) (a : ℚ) : l.foldl min a ≤ a := by
  induction l generalizing a with
  | nil => simp
  | cons b t ih => exact le_trans (ih (min a b)) (min_le_left a b)

theorem foldl_min_le_of_mem (l : List ℚ) (a x : ℚ) (hx : x ∈ l) :
    l.foldl min a ≤ x := by
  induction l generalizing a with
  | nil => cases hx
  | cons b t ih =>
    rcases List.mem_cons.mp hx with rfl | hmem
    · exact le_trans (foldl_min_le_self t (min a x)) (min_le_right a x)
    · exact ih (min a b) hmem

theorem self_le_foldl_max (l : List ℚ) (a : ℚ) : a ≤ l.foldl max a := by
  induction l generalizing a with
  | nil => simp
  | cons b t ih => exact le_trans (le_max_left a b) (ih (max a b))

theorem le_foldl_max_of_mem (l : List ℚ) (a x : ℚ) (hx : x ∈ l) :
    x ≤ l.foldl max a := by
  induction l generalizing a with
  | nil => cases hx
  | cons b t ih =>
    rcases List.mem_cons.mp hx with rfl | hmem
    · exact le_trans (le_max_right a x) (self_le_foldl_max t (max a x))
    · exact ih (max a b) hmem

/-- C7: `temp_stats` aggregates over exactly the measurements whose date lies
in the inclusive range `[s, e]`; over a range with at least one temperature
reading the statistics satisfy `min ≤ avg ≤ max`, and with exactly one
reading `min = max`. -/
theorem c7_temp_stats_bounds (ms : List Measurement) (s e : Date)
    (h : tobsInRange ms s e ≠ []) :
    ∃ mn av mx : ℚ,
      temp_stats ms s e = (some mn, some av, some mx) ∧
      mn ≤ av ∧ av ≤ mx ∧
      ((tobsInRange ms s e).length = 1 → mn = mx) ∧
      (∀ t : ℚ, t ∈ tobsInRange ms s e ↔
        ∃ m, m ∈ ms ∧ Date.le s m.date = true ∧ Date.le m.date e = true ∧
          m.tobs = some t) := by
  cases hts : tobsInRange ms s e with
  | nil => exact absurd hts h
  | cons t r =>
    have hlen : (0 : ℚ) < ((t :: r).length : ℚ) := by
      have : 0 < (t :: r).length := List.length_pos_of_ne_nil (by simp)
      exact_mod_cast this
    have hmn : ∀ x ∈ t :: r, r.foldl min t ≤ x := by
      intro x hx
      rcases List.mem_cons.mp hx with rfl | hmem
      · exact foldl_min_le_self r x
      · exact foldl_min_le_of_mem r t x hmem
    have hmx : ∀ x ∈ t :: r, x ≤ r.foldl max t := by
      intro x hx
      rcases List.mem_cons.mp hx with rfl | hmem
      · exact self_le_foldl_max r x
      · exact le_foldl_max_of_mem r t x hmem
    refine ⟨r.foldl min t, (t :: r).sum / ((t :: r).length : ℚ),
            r.foldl max t, ?_, ?_, ?_, ?_, ?_⟩
    · unfold temp_stats
      rw [hts]
      rfl
    · rw [le_div_iff₀ hlen]
      have hsum := List.card_nsmul_le_sum (t :: r) (r.foldl min t) hmn
      rw [nsmul_eq_mul] at hsum
      calc r.foldl min t * ((t :: r).length : ℚ)
          = ((t :: r).length : ℚ) * r.foldl min t := by ring
        _ ≤ (t :: r).sum := hsum
    · rw [div_le_iff₀ hlen]
      have hsum := List.sum_le_card_nsmul (t :: r) (r.foldl max t) hmx
      rw [nsmul_eq_mul] at hsum
      calc (t :: r).sum ≤ ((t :: r).length : ℚ) * r.foldl max t := hsum
        _ = r.foldl max t * ((t :: r).length : ℚ) := by ring
    · intro hlen1
      have hr : r = [] := by
        simp only [List.length_cons] at hlen1
        exact List.length_eq_zero.mp (by omega)
      subst hr
      rfl
    · intro t'
      rw [← hts]
      unfold tobsInRange
      simp only [List.mem_filterMap, List.mem_filter, Bool.and_eq_true]
      constructor
      · rintro ⟨m, ⟨hm, hle1, hle2⟩, ht⟩
        exact ⟨m, hm, hle1, hle2, ht⟩
      · rintro ⟨m, hm, hle1, hle2, ht⟩
        exact ⟨m, ⟨hm, hle1, hle2⟩, ht⟩

/-- Witness for C7: the range [2017-01-01, 2017-12-31] of the concrete
dataset holds two readings. -/
theorem c7_witness :
    tobsInRange msSpan ⟨2017, 1, 1⟩ ⟨2017, 12, 31⟩ ≠ [] ∧
    (∃ mn av mx : ℚ,
      temp_stats msSpan ⟨2017, 1, 1⟩ ⟨2017, 12, 31⟩ =
        (some mn, some av, some mx) ∧
      mn ≤ av ∧ av ≤ mx ∧
      ((tobsInRange msSpan ⟨2017, 1, 1⟩ ⟨2017, 12, 31⟩).length = 1 →
        mn = mx) ∧
      (∀ t : ℚ, t ∈ tobsInRange msSpan ⟨2017, 1, 1⟩ ⟨2017, 12, 31⟩ ↔
        ∃ m, m ∈ msSpan ∧ Date.le ⟨2017, 1, 1⟩ m.date = true ∧
          Date.le m.date ⟨2017, 12, 31⟩ = true ∧ m.tobs = some t)) :=
  ⟨by decide,
   c7_temp_stats_bounds msSpan ⟨2017, 1, 1⟩ ⟨2017, 12, 31⟩ (by decide)⟩

/-- C6: the precipitation route returns exactly the measurements whose date
is strictly greater than the latest date minus one calendar year, ordered
ascending by date, with null precipitation values kept. -/
theorem c6_precip_filter_sorted (ms : List Measurement) (dl d1 : Date)
    (hl : latestDate ms = some dl) (h1 : oneYearBefore dl = some d1) :
    ∃ res : List (Date × Option ℚ),
      precip ms = some res ∧
      res.Perm ((ms.filter (fun m => Date.lt d1 m.date)).map
        (fun m => (m.date, m.prcp))) ∧
      List.Pairwise (fun a b : Date × Option ℚ => Date.le a.1 b.1 = true)
        res := by
  refine ⟨((ms.filter (fun m => Date.lt d1 m.date)).mergeSort
      (fun a b => Date.le a.date b.date)).map (fun m => (m.date, m.prcp)),
    ?_, ?_, ?_⟩
  · unfold precip
    rw [hl]
    dsimp only
    rw [h1]
  · exact (List.mergeSort_perm _ _).map _
  · have hp := @List.sorted_mergeSort Measurement
      (fun a b => Date.le a.date b.date)
      (fun a b c hab hbc => Date.le_trans hab hbc)
      (fun a b => by
        rcases Date.le_total a.date b.date with h | h <;> simp [h])
      (ms.filter (fun m => Date.lt d1 m.date))
    rw [List.pairwise_map]
    exact hp

/-- Witness for C6: on the concrete dataset the cutoff is 2016-08-23 and the
last row's null precipitation is kept. -/
theorem c6_witness :
    latestDate msSpan = some ⟨2017, 8, 23⟩ ∧
    oneYearBefore ⟨2017, 8, 23⟩ = some ⟨2016, 8, 23⟩ ∧
    (∃ res : List (Date × Option ℚ),
      precip msSpan = some res ∧
      res.Perm ((msSpan.filter (fun m => Date.lt ⟨2016, 8, 23⟩ m.date)).map
        (fun m => (m.date, m.prcp))) ∧
      List.Pairwise (fun a b : Date × Option ℚ => Date.le a.1 b.1 = true)
        res) :=
  ⟨by decide, by decide,
   c6_precip_filter_sorted msSpan ⟨2017, 8, 23⟩ ⟨2016, 8, 23⟩
     (by decide) (by decide)⟩

/-- C8: the busiest-station selection returns a station of the dataset whose
row count is maximal, strictly maximal when no other station ties it, and
the selection is a pure function of the dataset (deterministic across
repeated calls). -/
theorem c8_busiest_station (ms : List Measurement) (h : ms ≠ []) :
    ∃ sid : String,
      busiestStation ms = some sid ∧
      sid ∈ ms.map (fun m => m.station) ∧
      (∀ s : String, s ∈ ms.map (fun m => m.station) →
        stationCount ms s ≤ stationCount ms sid) ∧
      ((∀ s : String, s ∈ ms.map (fun m => m.station) → s ≠ sid →
          stationCount ms s ≠ stationCount ms sid) →
        ∀ s : String, s ∈ ms.map (fun m => m.station) → s ≠ sid →
          stationCount ms s < stationCount ms sid) ∧
      (∀ ms' : List Measurement, ms' = ms →
        busiestStation ms' = busiestStation ms) := by
  have hne : stationCounts ms ≠ [] := by
    unfold stationCounts
    simp [h]
  cases hs : (stationCounts ms).mergeSort (fun a b => decide (b.2 ≤ a.2)) with
  | nil =>
    have hperm := List.mergeSort_perm (stationCounts ms)
      (fun a b => decide (b.2 ≤ a.2))
    rw [hs] at hperm
    exact absurd hperm.symm.eq_nil hne
  | cons p t =>
    have hperm := List.mergeSort_perm (stationCounts ms)
      (fun a b => decide (b.2 ≤ a.2))
    rw [hs] at hperm
    have hsorted := @List.sorted_mergeSort (String × Nat)
      (fun a b => decide (b.2 ≤ a.2))
      (fun a b c hab hbc => by
        simp only [decide_eq_true_eq] at *
        omega)
      (fun a b => by
        simp only [Bool.or_eq_true, decide_eq_true_eq]
        omega)
      (stationCounts ms)
    rw [hs] at hsorted
    have hhead := (List.pairwise_cons.mp hsorted).1
    have hmax : ∀ q ∈ stationCounts ms, q.2 ≤ p.2 := by
      intro q hq
      rcases List.mem_cons.mp (hperm.mem_iff.mpr hq) with rfl | hmem
      · exact le_refl _
      · exact of_decide_eq_true (hhead q hmem)
    have hp_mem : p ∈ stationCounts ms :=
      hperm.mem_iff.mp (List.mem_cons_self p t)
    have hp_shape : p.2 = stationCount ms p.1 := by
      unfold stationCounts at hp_mem
      rcases List.mem_map.mp hp_mem with ⟨s, hsmem, heq⟩
      rw [← heq]
      rfl
    have hsid_mem : p.1 ∈ ms.map (fun m => m.station) := by
      unfold stationCounts at hp_mem
      rcases List.mem_map.mp hp_mem with ⟨s, hsmem, heq⟩
      rw [← heq]
      exact List.mem_dedup.mp hsmem
    have hmain : ∀ s : String, s ∈ ms.map (fun m => m.station) →
        stationCount ms s ≤ stationCount ms p.1 := by
      intro s hsmem
      have hq : (s, stationCount ms s) ∈ stationCounts ms := by
        unfold stationCounts
        exact List.mem_map.mpr ⟨s, List.mem_dedup.mpr hsmem, rfl⟩
      have hle := hmax _ hq
      rw [hp_shape] at hle
      exact hle
    refine ⟨p.1, ?_, hsid_mem, hmain, ?_, ?_⟩
    · unfold busiestStation
      rw [hs]
      rfl
    · intro huniq s hsmem hne'
      exact lt_of_le_of_ne (hmain s hsmem) (huniq s hsmem hne')
    · intro ms' hms'
      rw [hms']

/-- Witness for C8 at a dataset with two stations ("A" twice, "B" once). -/
theorem c8_witness :
    msTwoStations ≠ [] ∧
    (∃ sid : String,
      busiestStation msTwoStations = some sid ∧
      sid ∈ msTwoStations.map (fun m => m.station) ∧
      (∀ s : String, s ∈ msTwoStations.map (fun m => m.station) →
        stationCount msTwoStations s ≤ stationCount msTwoStations sid) ∧
      ((∀ s : String, s ∈ msTwoStations.map (fun m => m.station) → s ≠ sid →
          stationCount msTwoStations s ≠ stationCount msTwoStations sid) →
        ∀ s : String, s ∈ msTwoStations.map (fun m => m.station) → s ≠ sid →
          stationCount msTwoStations s < stationCount msTwoStations sid) ∧
      (∀ ms' : List Measurement, ms' = msTwoStations →
        busiestStation ms' = busiestStation msTwoStations)) :=
  ⟨by decide, c8_busiest_station msTwoStations (by decide)⟩

/-- C10: the "one calendar year before" construction is partial at leap
days: on a dataset whose latest measurement date is 2016-02-29 the
`dt.datetime` constructor receives 2015-02-29, which does not exist, so both
the precipitation and the tobs handlers die on the uncaught `ValueError`
instead of returning a response. -/
theorem c10_leap_day_partial :
    latestDate msLeap = some ⟨2016, 2, 29⟩ ∧
    oneYearBefore ⟨2016, 2, 29⟩ = none ∧
    precip msLeap = none ∧
    tobsRoute msLeap = none := by
  refine ⟨by decide, by decide, ?_, ?_⟩
  · unfold precip
    rw [show latestDate msLeap = some ⟨2016, 2, 29⟩ from by decide]
    dsimp only
    rw [show oneYearBefore ⟨2016, 2, 29⟩ = none from by decide]
  · have hb : busiestStation msLeap = some "USC1" := by
      unfold busiestStation
      rw [show stationCounts msLeap = [("USC1", 1)] from by decide]
      rw [List.mergeSort_singleton]
      rfl
    unfold tobsRoute
    rw [hb]
    dsimp only
    rw [show latestDate (msLeap.filter (fun m => m.station == "USC1")) =
          some ⟨2016, 2, 29⟩ from by decide]
    dsimp only
    rw [show oneYearBefore ⟨2016, 2, 29⟩ = none from by decide]
